import Mathlib

/-!
# Verification of the agent-notifications event pipeline

Shallow embedding of the Rust sources of `agent-notifications`:
JSON payload parsing (serde data model), the Claude hook processor
(`src/processors/claude/input_and_output.rs`), the Codex notification
processor (`src/processors/codex/input_and_output.rs`), the settings store
(`src/configuration.rs`), and the two interactive configuration editors
(`src/processors/claude/init.rs`, `src/processors/codex/init.rs`).

The serde data model is embedded as an inductive `Json` type; the raw
byte-level JSON grammar is outside the embedding.  Rust `HashMap`s are
embedded as association lists (deterministic key order), and the opaque
platform notification capability is a `String → Bool` sink parameter
(`true` = delivery succeeded).
-/

namespace AgentNotif

/-- The serde_json data model: the value shapes an inbound payload can take. -/
inductive Json where
  | null : Json
  | bool (b : Bool) : Json
  | num (n : Int) : Json
  | str (s : String) : Json
  | arr (elems : List Json) : Json
  | obj (fields : List (String × Json)) : Json

/-- First-match association-list lookup (embedding of map/field access). -/
def lookupKey {K α : Type} [DecidableEq K] (k : K) : List (K × α) → Option α
  | [] => none
  | (k', v) :: rest => if k' = k then some v else lookupKey k rest

/-- serde: deserializing a `String` field. -/
def asString : Json → Option String
  | .str s => some s
  | _ => none

/-- serde: deserializing a `bool` field. -/
def asBool : Json → Option Bool
  | .bool b => some b
  | _ => none

/-- serde: an `Option<String>` field with `#[serde(default)]`:
absent or `null` gives `None`, a string gives `Some`, any other shape is an error. -/
def optStringField (fields : List (String × Json)) (name : String) :
    Option (Option String) :=
  match lookupKey name fields with
  | none => some none
  | some .null => some none
  | some (.str s) => some (some s)
  | some _ => none

/-- serde: an `Option<Value>` field with `#[serde(default)]`:
absent or `null` gives `None`, any other JSON value is kept. -/
def optValueField (fields : List (String × Json)) (name : String) :
    Option (Option Json) :=
  match lookupKey name fields with
  | none => some none
  | some .null => some none
  | some v => some (some v)

/-- serde: an `Option<bool>` field with `#[serde(default)]`. -/
def optBoolField (fields : List (String × Json)) (name : String) :
    Option (Option Bool) :=
  match lookupKey name fields with
  | none => some none
  | some .null => some none
  | some (.bool b) => some (some b)
  | some _ => none

/-! ## Claude hook event schema (`src/processors/claude/structs.rs`) -/

/-- `HookEventName`: the nine Claude hook event kinds. -/
inductive HookEventName where
  | PreToolUse | PostToolUse | Notification | UserPromptSubmit
  | Stop | SubagentStop | PreCompact | SessionStart | SessionEnd
deriving DecidableEq

/-- serde deserialization of `HookEventName` (PascalCase strings). -/
def parseHookEventName (s : String) : Option HookEventName :=
  if s = "PreToolUse" then some .PreToolUse
  else if s = "PostToolUse" then some .PostToolUse
  else if s = "Notification" then some .Notification
  else if s = "UserPromptSubmit" then some .UserPromptSubmit
  else if s = "Stop" then some .Stop
  else if s = "SubagentStop" then some .SubagentStop
  else if s = "PreCompact" then some .PreCompact
  else if s = "SessionStart" then some .SessionStart
  else if s = "SessionEnd" then some .SessionEnd
  else none

/-- `PreCompactTrigger` (camelCase serde names). -/
inductive PreCompactTrigger where
  | Manual | Auto
deriving DecidableEq

def parsePreCompactTrigger (s : String) : Option PreCompactTrigger :=
  if s = "manual" then some .Manual
  else if s = "auto" then some .Auto
  else none

/-- Rust `format!("\x7b:?\x7d", trigger)` used by the PreCompact arm. -/
def debugTrigger : PreCompactTrigger → String
  | .Manual => "Manual"
  | .Auto => "Auto"

/-- `SessionStartSource` (camelCase serde names). -/
inductive SessionStartSource where
  | Startup | Resume | Clear
deriving DecidableEq

def parseSessionStartSource (s : String) : Option SessionStartSource :=
  if s = "startup" then some .Startup
  else if s = "resume" then some .Resume
  else if s = "clear" then some .Clear
  else none

/-- `SessionEndReason` (camelCase serde names). -/
inductive SessionEndReason where
  | Clear | Logout | PromptInputExit | Other
deriving DecidableEq

def parseSessionEndReason (s : String) : Option SessionEndReason :=
  if s = "clear" then some .Clear
  else if s = "logout" then some .Logout
  else if s = "promptInputExit" then some .PromptInputExit
  else if s = "other" then some .Other
  else none

/-- An enum field wrapped in `Option` with `#[serde(default)]`. -/
def optEnumField {α : Type} (parse : String → Option α)
    (fields : List (String × Json)) (name : String) : Option (Option α) :=
  match lookupKey name fields with
  | none => some none
  | some .null => some none
  | some (.str s) => (parse s).map some
  | some _ => none

/-- `HookInput`: the Claude inbound event record.  `session_id`,
`transcript_path` and `hook_event_name` have no `#[serde(default)]` and are
required; every other field is optional. -/
structure HookInput where
  session_id : String
  transcript_path : String
  cwd : Option String
  hook_event_name : HookEventName
  tool_name : Option String
  tool_input : Option Json
  tool_response : Option Json
  message : Option String
  prompt : Option String
  stop_hook_active : Option Bool
  trigger : Option PreCompactTrigger
  custom_instructions : Option String
  source : Option SessionStartSource
  reason : Option SessionEndReason

/-- serde deserialization of `HookInput` from a JSON value.  Mirrors the
derived `Deserialize` for the struct in `structs.rs`: a non-object fails,
required fields must be present with the right type, `#[serde(default)]`
fields fall back to `None`, and unknown fields are ignored. -/
def parseHookInput (j : Json) : Option HookInput :=
  match j with
  | .obj fields =>
    match (lookupKey "session_id" fields).bind asString with
    | none => none
    | some sid =>
      match (lookupKey "transcript_path" fields).bind asString with
      | none => none
      | some tp =>
        match (lookupKey "hook_event_name" fields).bind asString with
        | none => none
        | some evs =>
          match parseHookEventName evs with
          | none => none
          | some ev =>
            match optStringField fields "cwd",
                  optStringField fields "tool_name",
                  optValueField fields "tool_input",
                  optValueField fields "tool_response" with
            | some cwd, some toolName, some toolInput, some toolResponse =>
              match optStringField fields "message",
                    optStringField fields "prompt",
                    optBoolField fields "stop_hook_active",
                    optEnumField parsePreCompactTrigger fields "trigger" with
              | some msg, some prompt, some sha, some trig =>
                match optStringField fields "custom_instructions",
                      optEnumField parseSessionStartSource fields "source",
                      optEnumField parseSessionEndReason fields "reason" with
                | some ci, some src, some rsn =>
                  some {
                    session_id := sid, transcript_path := tp, cwd := cwd,
                    hook_event_name := ev, tool_name := toolName,
                    tool_input := toolInput, tool_response := toolResponse,
                    message := msg, prompt := prompt, stop_hook_active := sha,
                    trigger := trig, custom_instructions := ci,
                    source := src, reason := rsn }
                | _, _, _ => none
              | _, _, _, _ => none
            | _, _, _, _ => none
  | _ => none

/-- `PermissionDecision` from `structs.rs`. -/
inductive PermissionDecision where
  | Allow | Deny | Ask
deriving DecidableEq

/-- `HookSpecificOutput` from `structs.rs`. -/
structure HookSpecificOutput where
  hook_event_name : Option String
  additional_context : Option String
  permission_decision : Option PermissionDecision
  permission_decision_reason : Option String
deriving DecidableEq

/-- `HookOutput`: the acknowledgment record written to standard output.
`continue_` embeds the raw-identifier field `continue`. -/
structure HookOutput where
  continue_ : Option Bool
  stop_reason : Option String
  suppress_output : Option Bool
  system_message : Option String
  decision : Option String
  reason : Option String
  hook_specific_output : Option HookSpecificOutput
deriving DecidableEq

/-- `HookOutput::default()`: `continue = Some(true)`,
`suppress_output = Some(false)`, everything else `None`. -/
def defaultHookOutput : HookOutput :=
  { continue_ := some true, stop_reason := none, suppress_output := some false,
    system_message := none, decision := none, reason := none,
    hook_specific_output := none }

/-! ## Claude event processor (`src/processors/claude/input_and_output.rs`) -/

mutual

/-- Rendering of a JSON value, standing in for the `\x7binput:?\x7d`
interpolation in the parse-failure system message. -/
def dumpJson : Json → String
  | .null => "null"
  | .bool true => "true"
  | .bool false => "false"
  | .num n => toString n
  | .str s => "\"" ++ s ++ "\""
  | .arr elems => "[" ++ dumpJsonList elems ++ "]"
  | .obj fields => "\x7b" ++ dumpJsonFields fields ++ "\x7d"

def dumpJsonList : List Json → String
  | [] => ""
  | [x] => dumpJson x
  | x :: y :: rest => dumpJson x ++ "," ++ dumpJsonList (y :: rest)

def dumpJsonFields : List (String × Json) → String
  | [] => ""
  | [(k, v)] => "\"" ++ k ++ "\":" ++ dumpJson v
  | (k, v) :: kv :: rest =>
    "\"" ++ k ++ "\":" ++ dumpJson v ++ "," ++ dumpJsonFields (kv :: rest)

end

/-- The system message emitted on the parse-failure path
(`format!("Failed to parse input JSON: \x7binput:?\x7d, error: \x7berror:?\x7d")`).
The serde error text is opaque to the embedding. -/
def parse_failure_message (input : Json) : String :=
  "Failed to parse input JSON: " ++ dumpJson input ++ ", error: invalid HookInput"

/-- The system message emitted on the dispatch-failure path
(`format!("Failed to send notification: \x7berror:?\x7d")`). -/
def notify_failure_message : String :=
  "Failed to send notification: notification error"

/-- The notification body computed by `send_notification`'s nine match arms. -/
def claude_notification_body (hookInput : HookInput) : String :=
  match hookInput.hook_event_name with
  | .PreToolUse =>
    let toolName := hookInput.tool_name.getD "a unknown tool"
    "The agent is trying to use " ++ toolName
  | .PostToolUse =>
    let toolName := hookInput.tool_name.getD "a unknown tool"
    "The agent has used " ++ toolName
  | .Notification =>
    hookInput.message.getD "The agent didn't provide any message."
  | .UserPromptSubmit =>
    let prompt := hookInput.prompt.getD "unknown"
    "User prompt submitted: " ++ prompt
  | .Stop => "The agent has stopped responding."
  | .SubagentStop => "A subagent has stopped responding."
  | .PreCompact =>
    let trigger := (hookInput.trigger.map debugTrigger).getD "unknown"
    "The agent is about to compact the conversation. Trigger: " ++ trigger
  | .SessionStart => "The agent has started a new session."
  | .SessionEnd =>
    let reason := (hookInput.reason.map (fun r =>
      match r with
      | .Clear => "the user ran /clear."
      | .PromptInputExit => "the user exited while prompt input was visible."
      | .Logout => "the user logged out."
      | .Other => "the session ended for unspecified reason.")).getD "unknown"
    "The agent has ended the session because " ++ reason

/-- Process-level error kinds surfaced by `process_claude_input`. -/
inductive ProcessError where
  | parseError | notifyError
deriving DecidableEq

/-- What one invocation of `process_claude_input` did: the acknowledgment
documents printed to standard output (in order), the notification bodies
handed to the platform capability, and the returned result. -/
structure ClaudeRun where
  outputs : List HookOutput
  notified : List String
  result : Except ProcessError Unit

/-- `send_notification` for Claude: every event kind makes exactly one call
to the opaque platform capability, here the `sink`, with the computed body;
`sink body = false` models a delivery failure propagated with `?`. -/
def claude_send_notification (sink : String → Bool) (hookInput : HookInput) :
    Bool × String :=
  let body := claude_notification_body hookInput
  (sink body, body)

/-- `process_claude_input`: parse the payload; on parse failure print one
error acknowledgment and return `ParseError`; on dispatch failure print one
acknowledgment with a system message and return the error; on success print
the `continue=true, suppressOutput=true` acknowledgment. -/
def process_claude_input (sink : String → Bool) (input : Json) : ClaudeRun :=
  match parseHookInput input with
  | none =>
    { outputs := [{ defaultHookOutput with
        system_message := some (parse_failure_message input),
        suppress_output := some false }],
      notified := [],
      result := .error .parseError }
  | some hookInput =>
    let (sent, body) := claude_send_notification sink hookInput
    if sent then
      { outputs := [{ defaultHookOutput with
          continue_ := some true, suppress_output := some true }],
        notified := [body],
        result := .ok () }
    else
      { outputs := [{ defaultHookOutput with
          continue_ := some true, suppress_output := some true,
          system_message := some notify_failure_message }],
        notified := [body],
        result := .error .notifyError }

/-! ## Codex notification schema and processor
(`src/processors/codex/structs.rs`, `src/processors/codex/input_and_output.rs`) -/

/-- `NotificationType`: kebab-case tagged, with `#[serde(other)] Unknown`. -/
inductive NotificationType where
  | AgentTurnComplete | Unknown
deriving DecidableEq

/-- serde deserialization of `NotificationType`: the one recognized string
maps to its variant, every other string maps to `Unknown` via
`#[serde(other)]`. -/
def parseNotificationType (s : String) : NotificationType :=
  if s = "agent-turn-complete" then .AgentTurnComplete else .Unknown

/-- `NotificationType::as_str`. -/
def notificationTypeAsStr : NotificationType → String
  | .AgentTurnComplete => "AgentTurnComplete"
  | .Unknown => "Unknown"

/-- `CodexNotificationInput` (kebab-case field names; all but `type`
are `#[serde(default)]` optional). -/
structure CodexNotificationInput where
  type : NotificationType
  turn_id : Option String
  input_messages : Option (List String)
  last_assistant_message : Option String
deriving DecidableEq

/-- serde: an `Option<Vec<String>>` field with `#[serde(default)]`. -/
def optStringListField (fields : List (String × Json)) (name : String) :
    Option (Option (List String)) :=
  match lookupKey name fields with
  | none => some none
  | some .null => some none
  | some (.arr elems) =>
    (elems.mapM asString).map some
  | some _ => none

/-- serde deserialization of `CodexNotificationInput` from a JSON value. -/
def parseCodexInput (j : Json) : Option CodexNotificationInput :=
  match j with
  | .obj fields =>
    match (lookupKey "type" fields).bind asString with
    | none => none
    | some typeStr =>
      match optStringField fields "turn-id",
            optStringListField fields "input-messages",
            optStringField fields "last-assistant-message" with
      | some turnId, some inputMessages, some lastAssistantMessage =>
        some { type := parseNotificationType typeStr, turn_id := turnId,
               input_messages := inputMessages,
               last_assistant_message := lastAssistantMessage }
      | _, _, _ => none
  | _ => none

/-- Rust `s.trim().is_empty()`: every character is whitespace. -/
def isBlankStr (s : String) : Bool :=
  s.data.all (fun c => c.isWhitespace)

/-- The message chosen by the AgentTurnComplete arm, translated from the
`filter` / `or_else` / `unwrap_or_else` combinator chain in the source. -/
def codex_preferred_message (n : CodexNotificationInput) : String :=
  ((Option.filter (fun s => !isBlankStr s) n.last_assistant_message).orElse
    (fun _ => n.input_messages.map (fun inputs =>
      let joined := String.intercalate " " inputs
      if isBlankStr joined then "Turn Complete!" else joined))).getD
    "Turn Complete!"

/-- What one Codex dispatch did: `(summary, body)` pairs handed to the
platform capability, diagnostic (tracing) lines, and the result. -/
structure CodexRun where
  sent : List (String × String)
  diagnostics : List String
  result : Except ProcessError Unit

/-- `send_notification` for Codex: AgentTurnComplete sends exactly one
notification whose body prefixes the resolved message with
"Turn Completed: "; Unknown sends nothing and only logs a diagnostic. -/
def codex_send_notification (sink : String → String → Bool)
    (n : CodexNotificationInput) : CodexRun :=
  match n.type with
  | .AgentTurnComplete =>
    let body := "Turn Completed: " ++ codex_preferred_message n
    let summary := notificationTypeAsStr n.type
    if sink summary body then
      { sent := [(summary, body)], diagnostics := [], result := .ok () }
    else
      { sent := [(summary, body)], diagnostics := [],
        result := .error .notifyError }
  | .Unknown =>
    { sent := [], diagnostics := ["unknown Codex notification type"],
      result := .ok () }

/-- `process_codex_input`: parse, then dispatch; parse failure returns an
error with no acknowledgment protocol and no notification. -/
def process_codex_input (sink : String → String → Bool) (input : Json) :
    CodexRun :=
  match parseCodexInput input with
  | none => { sent := [], diagnostics := [], result := .error .parseError }
  | some n => codex_send_notification sink n

/-- Modelled from the spec: the message-resolution rule of the dispatch
table row for AgentTurnComplete — "prefer non-blank last-assistant-message,
else join of input messages, else \"Turn Complete!\" (also used when the
join is blank)".  Stated independently of the source combinator chain and
compared against it in the claim theorem. -/
def spec_turn_message (lastAssistantMessage : Option String)
    (inputMessages : Option (List String)) : String :=
  match lastAssistantMessage with
  | some m =>
    if isBlankStr m then
      match inputMessages with
      | some inputs =>
        if isBlankStr (String.intercalate " " inputs) then "Turn Complete!"
        else String.intercalate " " inputs
      | none => "Turn Complete!"
    else m
  | none =>
    match inputMessages with
    | some inputs =>
      if isBlankStr (String.intercalate " " inputs) then "Turn Complete!"
      else String.intercalate " " inputs
    | none => "Turn Complete!"

/-! ## Settings store (`src/configuration.rs`) -/

/-- `Claude` settings section: just `pretend`, with no `#[serde(default)]`. -/
structure ClaudeSettings where
  pretend : Bool
deriving DecidableEq

/-- `Codex` settings section: just `pretend`, with no `#[serde(default)]`. -/
structure CodexSettings where
  pretend : Bool
deriving DecidableEq

/-- `Config`: the versioned settings record. -/
structure Config where
  version : Nat
  claude : ClaudeSettings
  codex : CodexSettings
deriving DecidableEq

/-- `Config::default()`: version 1, Claude pretend `true`, Codex pretend
`false`. -/
def defaultConfig : Config :=
  { version := 1, claude := { pretend := true }, codex := { pretend := false } }

/-- serde: a required `u32` field. -/
def asU32 : Json → Option Nat
  | .num n => if 0 ≤ n ∧ n < 4294967296 then some n.toNat else none
  | _ => none

/-- serde deserialization of the `Claude` section: `pretend` is required. -/
def parseClaudeSettings (j : Json) : Option ClaudeSettings :=
  match j with
  | .obj fields =>
    ((lookupKey "pretend" fields).bind asBool).map (fun b => { pretend := b })
  | _ => none

/-- serde deserialization of the `Codex` section: `pretend` is required. -/
def parseCodexSettings (j : Json) : Option CodexSettings :=
  match j with
  | .obj fields =>
    ((lookupKey "pretend" fields).bind asBool).map (fun b => { pretend := b })
  | _ => none

/-- serde deserialization of `Config`: `version`, `claude` and `codex` are
all required (none of the fields carries `#[serde(default)]`); unknown
fields are ignored. -/
def parseConfig (j : Json) : Option Config :=
  match j with
  | .obj fields =>
    match (lookupKey "version" fields).bind asU32 with
    | none => none
    | some version =>
      match (lookupKey "claude" fields).bind parseClaudeSettings with
      | none => none
      | some claude =>
        match (lookupKey "codex" fields).bind parseCodexSettings with
        | none => none
        | some codex => some { version := version, claude := claude, codex := codex }
  | _ => none

/-- `serde_json::to_string(&Config)`: fields in declaration order. -/
def serializeConfig (c : Config) : Json :=
  .obj [("version", .num c.version),
        ("claude", .obj [("pretend", .bool c.claude.pretend)]),
        ("codex", .obj [("pretend", .bool c.codex.pretend)])]

/-- The settings-store error kind. -/
inductive LoadError where
  | configError
deriving DecidableEq

/-- `initialize_configuration` from `configuration.rs`: if the file is
absent write the serialized default (`create_default_config`) and then read
it back; if it exists parse its content, failing on any parse error.
The file is modelled by its (optional) JSON content; returns the parse
result together with the content left on disk. -/
def load_configuration (file : Option Json) : Except LoadError Config × Option Json :=
  match file with
  | none =>
    let created := serializeConfig defaultConfig
    match parseConfig created with
    | some c => (.ok c, some created)
    | none => (.error .configError, some created)
  | some j =>
    match parseConfig j with
    | some c => (.ok c, some j)
    | none => (.error .configError, some j)

/-! ## Claude config editor (`src/processors/claude/init.rs`)

The `hooks` field of `ClaudeConfiguration` is a
`HashMap<HookEventName, Vec<EventHookConfiguration>>`; it is embedded as an
association list with (as in the real map) pairwise distinct keys.  Keys
newly inserted by `entry().or_insert_with(Vec::new)` are appended at the
end of the list. -/

/-- `HookType` (only `command`). -/
inductive HookType where
  | command
deriving DecidableEq

/-- `ActionConfiguration`: one handler entry. -/
structure ActionConfiguration where
  type : HookType
  command : String
  timeout : Option Nat
deriving DecidableEq

/-- `EventHookConfiguration`: matcher plus handler actions. -/
structure EventHookConfiguration where
  matcher : String
  hooks : List ActionConfiguration
deriving DecidableEq

/-- `pat` occurs as a contiguous run inside `s` (character lists). -/
def containsChars (s pat : List Char) : Bool :=
  match s with
  | [] => pat.isEmpty
  | c :: rest => pat.isPrefixOf (c :: rest) || containsChars rest pat

/-- Rust `str::contains` for literal patterns. -/
def strContains (s pat : String) : Bool :=
  containsChars s.data pat.data

/-- `is_our_notification_action`: the command contains both "anot" and
"claude". -/
def is_our_notification_action (action : ActionConfiguration) : Bool :=
  strContains action.command "anot" && strContains action.command "claude"

/-- `has_our_notification_hook` lifted to one `EventHookConfiguration`. -/
def ehc_is_ours (hc : EventHookConfiguration) : Bool :=
  hc.hooks.any is_our_notification_action

/-- `create_our_hook_config`: empty matcher, one command action,
timeout 10. -/
def our_hook_config (command : String) : EventHookConfiguration :=
  { matcher := "", hooks := [{ type := .command, command := command, timeout := some 10 }] }

section AssocMerge

variable {K V : Type} [DecidableEq K] (p : V → Bool) (e : V)

/-- Keys of an association list. -/
def keysOf (l : List (K × List V)) : List K := l.map Prod.fst

/-- `remove_our_notification_hooks`: per key, retain the entries that do
not satisfy `p`. -/
def stripVals (l : List (K × List V)) : List (K × List V) :=
  l.map (fun kv => (kv.1, kv.2.filter (fun v => !p v)))

/-- One `entry(event).or_insert_with(Vec::new).push(e)` step. -/
def addOne (k : K) : List (K × List V) → List (K × List V)
  | [] => [(k, [e])]
  | (k', vs) :: rest =>
    if k' = k then (k', vs ++ [e]) :: rest else (k', vs) :: addOne k rest

/-- `add_hooks_to_selected_events`: push `e` onto each selected key. -/
def addAll (sel : List K) (l : List (K × List V)) : List (K × List V) :=
  match sel with
  | [] => l
  | k :: ks => addAll ks (addOne e k l)

/-- `cleanup_empty_hook_entries`: drop keys whose entry list is empty. -/
def cleanupEmpty (l : List (K × List V)) : List (K × List V) :=
  l.filter (fun kv => !kv.2.isEmpty)

/-- The hooks-map part of `with_selected_notification_hooks`:
remove ours, add to selected, drop empties. -/
def mergeHooks (sel : List K) (l : List (K × List V)) : List (K × List V) :=
  cleanupEmpty (addAll e sel (stripVals p l))

end AssocMerge

/-- `ClaudeConfiguration`: the open JSON settings document — the `hooks`
map plus the flattened passthrough keys. -/
structure ClaudeConfiguration where
  hooks : List (HookEventName × List EventHookConfiguration)
  other : List (String × Json)

/-- `with_selected_notification_hooks`. -/
def with_selected_notification_hooks (config : ClaudeConfiguration)
    (command : String) (selected : List HookEventName) : ClaudeConfiguration :=
  { config with
    hooks := mergeHooks ehc_is_ours (our_hook_config command) selected config.hooks }

/-! ## Interactive editor flows

Both `init` flows are modelled with the target path already supplied (the
path-menu prompt is skipped by the source in that case).  Prompts are
modelled by a script of predetermined answers, where `none` models the user
cancelling or interrupting that prompt (`InquireError::OperationCanceled` /
`OperationInterrupted`).  The file is modelled by its parsed content; the
flow output records the final content and every write performed. -/

/-- Outcome of an editor flow. -/
inductive FlowResult where
  | ok | cancelled
deriving DecidableEq

/-- Outcome record of an editor flow over config documents of type `C`:
result, final file content, and the contents written, in order. -/
structure FlowOut (C : Type) where
  result : FlowResult
  file : Option C
  writes : List C

/-- Answers for the Claude init flow prompts. -/
structure ClaudePromptScript where
  create_confirm : Option Bool
  hook_selection : Option (List HookEventName)

/-- The empty document written by `ensure_path_exists` when the user
confirms creating a missing file. -/
def empty_claude_configuration : ClaudeConfiguration :=
  { hooks := [], other := [] }

/-- The `init claude` flow (`initialize_claude_configuration`) with the
path given: ensure the file exists (confirm prompt when missing; declining
or cancelling aborts), read it, prompt for the hook selection (cancelling
aborts), merge, write. -/
def claude_config_flow (script : ClaudePromptScript)
    (initial : Option ClaudeConfiguration) (command : String) :
    FlowOut ClaudeConfiguration :=
  match initial with
  | none =>
    match script.create_confirm with
    | none => { result := .cancelled, file := none, writes := [] }
    | some false => { result := .cancelled, file := none, writes := [] }
    | some true =>
      let created := empty_claude_configuration
      match script.hook_selection with
      | none =>
        { result := .cancelled, file := some created, writes := [created] }
      | some sel =>
        let merged := with_selected_notification_hooks created command sel
        { result := .ok, file := some merged, writes := [created, merged] }
  | some config =>
    match script.hook_selection with
    | none => { result := .cancelled, file := some config, writes := [] }
    | some sel =>
      let merged := with_selected_notification_hooks config command sel
      { result := .ok, file := some merged, writes := [merged] }

/-! ### Codex config editor (`src/processors/codex/init.rs`) -/

/-- `CodexConfiguration`: the optional `notify` command list plus the
flattened passthrough TOML table (values embedded in the generic `Json`
value model). -/
structure CodexConfiguration where
  notify : Option (List String)
  other : List (String × Json)

/-- `CodexConfiguration::default()`: what parsing an empty file yields. -/
def default_codex_configuration : CodexConfiguration :=
  { notify := none, other := [] }

/-- `set_notify`. -/
def set_notify (c : CodexConfiguration) (cmd : List String) : CodexConfiguration :=
  { c with notify := some cmd }

/-- `clear_notify`. -/
def clear_notify (c : CodexConfiguration) : CodexConfiguration :=
  { c with notify := none }

/-- `ExistingNotifyAction`: the menu offered when `notify` is already set. -/
inductive ExistingNotifyAction where
  | Override | Keep | Remove
deriving DecidableEq

/-- Answers for the Codex init flow prompts. -/
structure CodexPromptScript where
  create_confirm : Option Bool
  existing_action : Option ExistingNotifyAction
  set_confirm : Option Bool

/-- The `init codex` flow (`initialize_codex_configuration`) with the path
given: ensure the file exists (an empty file is created on confirmation and
parses to the default document), then either handle an existing `notify`
(Override / Keep / Remove) or ask whether to set it. -/
def codex_config_flow (script : CodexPromptScript)
    (initial : Option CodexConfiguration) (command : List String) :
    FlowOut CodexConfiguration :=
  let afterEnsure : Option (CodexConfiguration × List CodexConfiguration) :=
    match initial with
    | none =>
      match script.create_confirm with
      | none => none
      | some false => none
      | some true => some (default_codex_configuration, [default_codex_configuration])
    | some config => some (config, [])
  match afterEnsure with
  | none => { result := .cancelled, file := none, writes := [] }
  | some (config, createdWrites) =>
    match config.notify with
    | some _ =>
      match script.existing_action with
      | none =>
        { result := .cancelled, file := some config, writes := createdWrites }
      | some .Override =>
        let updated := set_notify config command
        { result := .ok, file := some updated, writes := createdWrites ++ [updated] }
      | some .Keep =>
        { result := .ok, file := some config, writes := createdWrites }
      | some .Remove =>
        let updated := clear_notify config
        { result := .ok, file := some updated, writes := createdWrites ++ [updated] }
    | none =>
      match script.set_confirm with
      | none =>
        { result := .cancelled, file := some config, writes := createdWrites }
      | some true =>
        let updated := set_notify config command
        { result := .ok, file := some updated, writes := createdWrites ++ [updated] }
      | some false =>
        { result := .ok, file := some config, writes := createdWrites }

/-! ## Theorems -/

/-- Helper: the success acknowledgment record. -/
def ack_success : HookOutput :=
  { continue_ := some true, stop_reason := none, suppress_output := some true,
    system_message := none, decision := none, reason := none,
    hook_specific_output := none }

/-- Helper: the parse-failure system message is never empty. -/
theorem parse_failure_message_ne_empty (j : Json) : parse_failure_message j ≠ "" := by
  intro h
  have hd : (parse_failure_message j).data = "".data := congrArg String.data h
  have he : (parse_failure_message j).data =
      ("Failed to parse input JSON: " ++ dumpJson j).data ++
        ", error: invalid HookInput".data := rfl
  rw [he] at hd
  simp at hd

/-- A sample minimal valid Claude payload and its parse result. -/
def sampleStopInput : Json :=
  .obj [("session_id", .str "s"), ("transcript_path", .str "t"),
        ("hook_event_name", .str "Stop")]

def sampleStopHookInput : HookInput :=
  { session_id := "s", transcript_path := "t", cwd := none,
    hook_event_name := .Stop, tool_name := none, tool_input := none,
    tool_response := none, message := none, prompt := none,
    stop_hook_active := none, trigger := none, custom_instructions := none,
    source := none, reason := none }

/-- C1: when the raw Claude input parses and dispatch succeeds,
`process_claude_input` writes exactly one acknowledgment, with
`continue = true`, `suppressOutput = true` and no `systemMessage`; and on
every path (parse failure, dispatch failure, success) exactly one
acknowledgment document is written to standard output. -/
theorem claude_process_single_ack :
    (∀ (sink : String → Bool) (j : Json) (hi : HookInput),
        parseHookInput j = some hi →
        sink (claude_notification_body hi) = true →
        (process_claude_input sink j).outputs = [ack_success]) ∧
    (∀ (sink : String → Bool) (j : Json),
        (process_claude_input sink j).outputs.length = 1) := by
  constructor
  · intro sink j hi hparse hsink
    simp [process_claude_input, hparse, claude_send_notification, hsink,
      ack_success, defaultHookOutput]
  · intro sink j
    unfold process_claude_input
    cases hp : parseHookInput j with
    | none => rfl
    | some hi =>
      cases hs : sink (claude_notification_body hi) <;>
        simp [claude_send_notification, hs]

/-- C1 witness: a concrete successful run. -/
theorem claude_process_single_ack_witness :
    parseHookInput sampleStopInput = some sampleStopHookInput ∧
    (fun _ => true : String → Bool) (claude_notification_body sampleStopHookInput) = true ∧
    (process_claude_input (fun _ => true) sampleStopInput).outputs = [ack_success] ∧
    (process_claude_input (fun _ => true) sampleStopInput).outputs.length = 1 :=
  ⟨rfl, rfl,
   claude_process_single_ack.1 (fun _ => true) sampleStopInput sampleStopHookInput rfl rfl,
   claude_process_single_ack.2 (fun _ => true) sampleStopInput⟩

/-- C2: with the kind-specific optional fields absent, the notification
body of `send_notification` is exactly the fallback text of the dispatch
table, for each of the nine event kinds. -/
theorem claude_fallback_bodies :
    ∀ hi : HookInput,
      hi.tool_name = none → hi.message = none → hi.prompt = none →
      hi.trigger = none → hi.reason = none →
      claude_notification_body hi =
        (match hi.hook_event_name with
         | .PreToolUse => "The agent is trying to use a unknown tool"
         | .PostToolUse => "The agent has used a unknown tool"
         | .Notification => "The agent didn't provide any message."
         | .UserPromptSubmit => "User prompt submitted: unknown"
         | .Stop => "The agent has stopped responding."
         | .SubagentStop => "A subagent has stopped responding."
         | .PreCompact => "The agent is about to compact the conversation. Trigger: unknown"
         | .SessionStart => "The agent has started a new session."
         | .SessionEnd => "The agent has ended the session because unknown") := by
  intro hi h1 h2 h3 h4 h5
  obtain ⟨sid, tp, cwd, ev, tn, ti, tr, msg, pr, sha, trg, ci, src, rsn⟩ := hi
  dsimp only at h1 h2 h3 h4 h5
  subst h1 h2 h3 h4 h5
  cases ev <;> rfl

/-- C2 witness: the Notification kind with no message. -/
theorem claude_fallback_bodies_witness :
    ({ sampleStopHookInput with hook_event_name := .Notification } : HookInput).tool_name = none ∧
    claude_notification_body { sampleStopHookInput with hook_event_name := .Notification } =
      "The agent didn't provide any message." :=
  ⟨rfl,
   claude_fallback_bodies { sampleStopHookInput with hook_event_name := .Notification }
     rfl rfl rfl rfl rfl⟩

/-- C3: an input that does not parse as `HookInput` yields exactly one
acknowledgment with `suppressOutput = false` and a non-empty
`systemMessage`, no notification attempt, and a `ParseError` result. -/
theorem claude_parse_failure_behavior :
    ∀ (sink : String → Bool) (j : Json),
      parseHookInput j = none →
      (process_claude_input sink j).outputs =
        [{ continue_ := some true, stop_reason := none,
           suppress_output := some false,
           system_message := some (parse_failure_message j),
           decision := none, reason := none, hook_specific_output := none }] ∧
      parse_failure_message j ≠ "" ∧
      (process_claude_input sink j).notified = [] ∧
      (process_claude_input sink j).result = .error .parseError := by
  intro sink j hp
  refine ⟨?_, parse_failure_message_ne_empty j, ?_, ?_⟩ <;>
    simp [process_claude_input, hp, defaultHookOutput]

/-- C3 witness: a concrete invalid payload (no fields at all). -/
theorem claude_parse_failure_behavior_witness :
    parseHookInput (.obj []) = none ∧
    (process_claude_input (fun _ => true) (.obj [])).notified = [] ∧
    (process_claude_input (fun _ => true) (.obj [])).result = .error .parseError :=
  ⟨rfl,
   (claude_parse_failure_behavior (fun _ => true) (.obj []) rfl).2.2.1,
   (claude_parse_failure_behavior (fun _ => true) (.obj []) rfl).2.2.2⟩

/-- C10: a Claude payload missing `session_id` or `transcript_path` never
parses, whatever the event kind, so `process_claude_input` takes the
parse-failure path; while a payload carrying only the three required fields
parses for every one of the nine event kinds (`cwd` and all kind-specific
fields are optional). -/
theorem hookinput_required_fields :
    (∀ (fields : List (String × Json)) (sink : String → Bool),
        lookupKey "session_id" fields = none ∨
        lookupKey "transcript_path" fields = none →
        parseHookInput (.obj fields) = none ∧
        (process_claude_input sink (.obj fields)).result = .error .parseError) ∧
    (∀ name ∈ ["PreToolUse", "PostToolUse", "Notification", "UserPromptSubmit",
               "Stop", "SubagentStop", "PreCompact", "SessionStart", "SessionEnd"],
        (parseHookInput (.obj [("session_id", .str "s"),
          ("transcript_path", .str "t"),
          ("hook_event_name", .str name)])).isSome = true) := by
  constructor
  · intro fields sink h
    have hp : parseHookInput (.obj fields) = none := by
      rcases h with h | h
      · simp [parseHookInput, h]
      · simp only [parseHookInput, h]
        split <;> rfl
    exact ⟨hp, by simp [process_claude_input, hp]⟩
  · intro name hname
    fin_cases hname <;> rfl

/-- C10 witness: a payload with an event kind but no `session_id`. -/
theorem hookinput_required_fields_witness :
    lookupKey "session_id"
        [(("hook_event_name" : String), Json.str "Stop")] = none ∧
    parseHookInput (.obj [("hook_event_name", .str "Stop")]) = none ∧
    (process_claude_input (fun _ => true)
        (.obj [("hook_event_name", .str "Stop")])).result = .error .parseError ∧
    (parseHookInput sampleStopInput).isSome = true :=
  ⟨rfl,
   (hookinput_required_fields.1 [("hook_event_name", .str "Stop")]
      (fun _ => true) (Or.inl rfl)).1,
   (hookinput_required_fields.1 [("hook_event_name", .str "Stop")]
      (fun _ => true) (Or.inl rfl)).2,
   hookinput_required_fields.2 "Stop" (by simp)⟩

/-- Helper for C7: the source combinator chain resolves the message exactly
as the spec's resolution rule states. -/
theorem codex_preferred_eq_spec (n : CodexNotificationInput) :
    codex_preferred_message n =
      spec_turn_message n.last_assistant_message n.input_messages := by
  obtain ⟨ty, tid, im, lam⟩ := n
  cases lam with
  | none =>
    cases im with
    | none => rfl
    | some inputs =>
      cases hj : isBlankStr (String.intercalate " " inputs) <;>
        simp [codex_preferred_message, spec_turn_message, Option.filter,
          Option.orElse, hj]
  | some m =>
    cases hb : isBlankStr m with
    | false =>
      simp [codex_preferred_message, spec_turn_message, Option.filter,
        Option.orElse, hb]
    | true =>
      cases im with
      | none =>
        simp [codex_preferred_message, spec_turn_message, Option.filter,
          Option.orElse, hb]
      | some inputs =>
        cases hj : isBlankStr (String.intercalate " " inputs) <;>
          simp [codex_preferred_message, spec_turn_message, Option.filter,
            Option.orElse, hb, hj]

/-- C7 counterexample: the claim's literal example input carries the
snake_case key `last_assistant_message`, but `CodexNotificationInput` is
`#[serde(rename_all = "kebab-case")]`, so that key is an unknown field and
is ignored: the parsed event has no last-assistant message and the body is
"Turn Completed: Turn Complete!", not "Turn Completed: Done." as the claim
states. -/
theorem codex_example_snake_case_key_ignored :
    (process_codex_input (fun _ _ => true)
        (.obj [("type", .str "agent-turn-complete"),
               ("last_assistant_message", .str "Done.")])).sent =
      [("AgentTurnComplete", "Turn Completed: Turn Complete!")] ∧
    (process_codex_input (fun _ _ => true)
        (.obj [("type", .str "agent-turn-complete"),
               ("last_assistant_message", .str "Done.")])).sent ≠
      [("AgentTurnComplete", "Turn Completed: Done.")] := by
  refine ⟨rfl, ?_⟩
  decide

/-- C7 (amended): for every AgentTurnComplete event, exactly one
notification is attempted whose body is "Turn Completed: " followed by the
resolved message (prefer non-blank last-assistant-message, else the
space-join of the input messages, else "Turn Complete!"); the concrete
example payload, with the serde schema's kebab-case key
`last-assistant-message` (the claim's snake_case key is an unknown field
the parser ignores), yields body "Turn Completed: Done.". -/
theorem codex_turn_complete_body :
    (∀ (sink : String → String → Bool) (n : CodexNotificationInput),
        n.type = .AgentTurnComplete →
        (codex_send_notification sink n).sent =
          [("AgentTurnComplete",
            "Turn Completed: " ++
              spec_turn_message n.last_assistant_message n.input_messages)]) ∧
    (∀ sink : String → String → Bool,
        (process_codex_input sink
          (.obj [("type", .str "agent-turn-complete"),
                 ("last-assistant-message", .str "Done.")])).sent =
          [("AgentTurnComplete", "Turn Completed: Done.")]) := by
  constructor
  · intro sink n hty
    have hmsg := codex_preferred_eq_spec n
    unfold codex_send_notification
    rw [hty]
    dsimp only [notificationTypeAsStr]
    rw [hmsg]
    split <;> rfl
  · intro sink
    show (codex_send_notification sink
      { type := .AgentTurnComplete, turn_id := none, input_messages := none,
        last_assistant_message := some "Done." }).sent = _
    unfold codex_send_notification
    dsimp only [notificationTypeAsStr]
    split <;> rfl

/-- C7 witness: a concrete AgentTurnComplete event. -/
theorem codex_turn_complete_body_witness :
    ({ type := .AgentTurnComplete, turn_id := none, input_messages := none,
       last_assistant_message := some "Done." } :
        CodexNotificationInput).type = .AgentTurnComplete ∧
    (codex_send_notification (fun _ _ => true)
        { type := .AgentTurnComplete, turn_id := none, input_messages := none,
          last_assistant_message := some "Done." }).sent =
      [("AgentTurnComplete", "Turn Completed: " ++
        spec_turn_message (some "Done.") none)] ∧
    (process_codex_input (fun _ _ => true)
        (.obj [("type", .str "agent-turn-complete"),
               ("last-assistant-message", .str "Done.")])).sent =
      [("AgentTurnComplete", "Turn Completed: Done.")] :=
  ⟨rfl,
   codex_turn_complete_body.1 (fun _ _ => true)
     { type := .AgentTurnComplete, turn_id := none, input_messages := none,
       last_assistant_message := some "Done." } rfl,
   codex_turn_complete_body.2 (fun _ _ => true)⟩

/-- C8: any unrecognized `type` string deserializes to the Unknown variant;
dispatching an Unknown event sends no notification, emits one diagnostic
line and returns success; and the concrete example
`\x7b"type":"some-future-type"\x7d` does exactly that end to end. -/
theorem codex_unknown_type_behavior :
    (∀ s : String, s ≠ "agent-turn-complete" → parseNotificationType s = .Unknown) ∧
    (∀ (sink : String → String → Bool) (n : CodexNotificationInput),
        n.type = .Unknown →
        (codex_send_notification sink n).sent = [] ∧
        (codex_send_notification sink n).diagnostics =
          ["unknown Codex notification type"] ∧
        (codex_send_notification sink n).result = .ok ()) ∧
    (∀ sink : String → String → Bool,
        (process_codex_input sink (.obj [("type", .str "some-future-type")])).sent
            = [] ∧
        (process_codex_input sink
            (.obj [("type", .str "some-future-type")])).diagnostics =
          ["unknown Codex notification type"] ∧
        (process_codex_input sink
            (.obj [("type", .str "some-future-type")])).result = .ok ()) := by
  refine ⟨?_, ?_, ?_⟩
  · intro s h
    simp [parseNotificationType, h]
  · intro sink n h
    refine ⟨?_, ?_, ?_⟩ <;> simp [codex_send_notification, h]
  · intro sink
    refine ⟨rfl, rfl, rfl⟩

/-- C8 witness: applying the unknown-discriminant facts at a concrete
string and event. -/
theorem codex_unknown_type_behavior_witness :
    ("some-future-type" : String) ≠ "agent-turn-complete" ∧
    parseNotificationType "some-future-type" = .Unknown ∧
    (codex_send_notification (fun _ _ => true)
        { type := .Unknown, turn_id := none, input_messages := none,
          last_assistant_message := none }).sent = [] :=
  ⟨by decide,
   codex_unknown_type_behavior.1 "some-future-type" (by decide),
   (codex_unknown_type_behavior.2.1 (fun _ _ => true)
     { type := .Unknown, turn_id := none, input_messages := none,
       last_assistant_message := none } rfl).1⟩

/-- A settings document whose Claude section is missing its `pretend`
field. -/
def missingPretendSettings : Json :=
  .obj [("version", .num 1), ("claude", .obj []),
        ("codex", .obj [("pretend", .bool false)])]

/-- C5 counterexample: a settings file missing only `claude.pretend` makes
the load fail with `ConfigError`; the missing field does NOT take its
default, contrary to the claim. -/
theorem settings_missing_field_fails :
    (load_configuration (some missingPretendSettings)).1 = .error .configError := rfl

/-- C5 (amended): a missing per-agent section or a missing per-agent
`pretend` flag in an existing settings file makes the load fail with
`ConfigError`; the documented defaults (`pretend = true` for Claude,
`false` for Codex) are applied only when the file does not exist, by
creating it with the serialized default record. -/
theorem settings_load_defaults_only_on_create :
    (∀ fields : List (String × Json), lookupKey "claude" fields = none →
        (load_configuration (some (.obj fields))).1 = .error .configError) ∧
    (∀ (fields cfields : List (String × Json)),
        lookupKey "claude" fields = some (.obj cfields) →
        lookupKey "pretend" cfields = none →
        (load_configuration (some (.obj fields))).1 = .error .configError) ∧
    ((load_configuration none).1 = .ok defaultConfig ∧
     (load_configuration none).2 = some (serializeConfig defaultConfig)) ∧
    (defaultConfig.claude.pretend = true ∧ defaultConfig.codex.pretend = false) := by
  refine ⟨?_, ?_, ⟨rfl, rfl⟩, ⟨rfl, rfl⟩⟩
  · intro fields h
    have hp : parseConfig (.obj fields) = none := by
      simp only [parseConfig, h]
      split <;> rfl
    simp [load_configuration, hp]
  · intro fields cfields hc hp
    have hcs : parseClaudeSettings (.obj cfields) = none := by
      simp [parseClaudeSettings, hp]
    have hpc : parseConfig (.obj fields) = none := by
      simp only [parseConfig, hc]
      split
      · rfl
      · simp [hcs]
    simp [load_configuration, hpc]

/-- C5 witness for the amended claim: concrete files with a missing
section and with a missing flag. -/
theorem settings_load_defaults_only_on_create_witness :
    lookupKey "claude" [(("version" : String), Json.num 1)] = none ∧
    (load_configuration (some (.obj [("version", .num 1)]))).1 =
      .error .configError ∧
    (load_configuration (some missingPretendSettings)).1 = .error .configError :=
  ⟨rfl,
   settings_load_defaults_only_on_create.1 [("version", .num 1)] rfl,
   settings_load_defaults_only_on_create.2.1
     [("version", .num 1), ("claude", .obj []),
      ("codex", .obj [("pretend", .bool false)])] [] rfl rfl⟩

/-- C9: in the Codex editor with an existing notify command, Override
writes exactly one document whose `notify` is this tool's command with all
other keys untouched; Remove writes exactly one document with `notify`
cleared and all other keys untouched; Keep writes nothing and leaves the
file as it was. -/
theorem codex_editor_actions_frame :
    ∀ (config : CodexConfiguration) (current command : List String)
      (cc sc : Option Bool),
      config.notify = some current →
      ((codex_config_flow ⟨cc, some .Override, sc⟩ (some config) command).writes =
          [{ notify := some command, other := config.other }] ∧
       (codex_config_flow ⟨cc, some .Override, sc⟩ (some config) command).file =
          some { notify := some command, other := config.other } ∧
       (codex_config_flow ⟨cc, some .Override, sc⟩ (some config) command).result = .ok) ∧
      ((codex_config_flow ⟨cc, some .Remove, sc⟩ (some config) command).writes =
          [{ notify := none, other := config.other }] ∧
       (codex_config_flow ⟨cc, some .Remove, sc⟩ (some config) command).file =
          some { notify := none, other := config.other } ∧
       (codex_config_flow ⟨cc, some .Remove, sc⟩ (some config) command).result = .ok) ∧
      ((codex_config_flow ⟨cc, some .Keep, sc⟩ (some config) command).writes = [] ∧
       (codex_config_flow ⟨cc, some .Keep, sc⟩ (some config) command).file = some config ∧
       (codex_config_flow ⟨cc, some .Keep, sc⟩ (some config) command).result = .ok) := by
  intro config current command cc sc hnotify
  obtain ⟨notify, other⟩ := config
  dsimp only at hnotify
  subst hnotify
  refine ⟨⟨rfl, rfl, rfl⟩, ⟨rfl, rfl, rfl⟩, ⟨rfl, rfl, rfl⟩⟩

/-- C9 witness: a concrete starting document with a notify command and a
passthrough key. -/
theorem codex_editor_actions_frame_witness :
    ({ notify := some ["old"], other := [("model", Json.str "gpt")] } :
        CodexConfiguration).notify = some ["old"] ∧
    (codex_config_flow ⟨none, some .Keep, none⟩
        (some { notify := some ["old"], other := [("model", Json.str "gpt")] })
        ["/bin/anot", "codex"]).writes = [] :=
  ⟨rfl,
   (codex_editor_actions_frame
     { notify := some ["old"], other := [("model", Json.str "gpt")] }
     ["old"] ["/bin/anot", "codex"] none none rfl).2.2.1⟩

/-- C6 counterexample: in the Claude editor flow on a nonexistent file, the
user confirms creating the file and then cancels at the hook-selection
prompt; the flow ends cancelled, yet the created file remains on disk, so
the on-disk state does not equal its pre-run state (nonexistence). -/
theorem cancelled_flow_creates_file :
    (claude_config_flow ⟨some true, none⟩ none "cmd").result = .cancelled ∧
    (claude_config_flow ⟨some true, none⟩ none "cmd").writes ≠ [] ∧
    (claude_config_flow ⟨some true, none⟩ none "cmd").file ≠ none := by
  refine ⟨rfl, ?_, ?_⟩
  · intro h
    have h2 : (claude_config_flow ⟨some true, none⟩ none "cmd").writes =
        [empty_claude_configuration] := rfl
    rw [h2] at h
    exact List.noConfusion h
  · intro h
    have h2 : (claude_config_flow ⟨some true, none⟩ none "cmd").file =
        some empty_claude_configuration := rfl
    rw [h2] at h
    exact Option.noConfusion h

/-- C6 (amended): if the user cancels at any prompt, both editor flows stop
with the non-fatal cancelled condition and never modify a pre-existing
file; the only possible mutation on a cancelled run is the creation of the
default/empty document at a previously nonexistent path, which happens only
after the user explicitly confirmed the creation prompt. -/
theorem cancelled_flow_no_content_mutation :
    (∀ (script : ClaudePromptScript) (initial : Option ClaudeConfiguration)
       (command : String),
        (claude_config_flow script initial command).result = .cancelled →
        ((claude_config_flow script initial command).writes = [] ∧
         (claude_config_flow script initial command).file = initial) ∨
        (initial = none ∧ script.create_confirm = some true ∧
         (claude_config_flow script initial command).writes =
           [empty_claude_configuration] ∧
         (claude_config_flow script initial command).file =
           some empty_claude_configuration)) ∧
    (∀ (script : CodexPromptScript) (initial : Option CodexConfiguration)
       (command : List String),
        (codex_config_flow script initial command).result = .cancelled →
        ((codex_config_flow script initial command).writes = [] ∧
         (codex_config_flow script initial command).file = initial) ∨
        (initial = none ∧ script.create_confirm = some true ∧
         (codex_config_flow script initial command).writes =
           [default_codex_configuration] ∧
         (codex_config_flow script initial command).file =
           some default_codex_configuration)) := by
  constructor
  · intro script initial command hres
    obtain ⟨cc, hs⟩ := script
    cases initial with
    | none =>
      cases cc with
      | none => exact Or.inl ⟨rfl, rfl⟩
      | some b =>
        cases b with
        | false => exact Or.inl ⟨rfl, rfl⟩
        | true =>
          cases hs with
          | none => exact Or.inr ⟨rfl, rfl, rfl, rfl⟩
          | some sel => exact absurd hres (by simp [claude_config_flow])
    | some config =>
      cases hs with
      | none => exact Or.inl ⟨rfl, rfl⟩
      | some sel => exact absurd hres (by simp [claude_config_flow])
  · intro script initial command hres
    obtain ⟨cc, ea, sc⟩ := script
    cases initial with
    | none =>
      cases cc with
      | none => exact Or.inl ⟨rfl, rfl⟩
      | some b =>
        cases b with
        | false => exact Or.inl ⟨rfl, rfl⟩
        | true =>
          cases sc with
          | none => exact Or.inr ⟨rfl, rfl, rfl, rfl⟩
          | some b2 =>
            cases b2 <;> exact absurd hres (by simp [codex_config_flow,
              default_codex_configuration])
    | some config =>
      obtain ⟨notify, other⟩ := config
      cases notify with
      | none =>
        cases sc with
        | none => exact Or.inl ⟨rfl, rfl⟩
        | some b2 =>
          cases b2 <;> exact absurd hres (by simp [codex_config_flow])
      | some cur =>
        cases ea with
        | none => exact Or.inl ⟨rfl, rfl⟩
        | some act =>
          cases act <;> exact absurd hres (by simp [codex_config_flow])

/-- C6 witness for the amended claim: cancelling the hook selection over an
existing file leaves it untouched, and cancelling after the confirmed
creation leaves exactly the created default file. -/
theorem cancelled_flow_no_content_mutation_witness :
    (claude_config_flow ⟨none, none⟩ (some empty_claude_configuration)
        "cmd").result = .cancelled ∧
    (((claude_config_flow ⟨none, none⟩ (some empty_claude_configuration)
        "cmd").writes = [] ∧
      (claude_config_flow ⟨none, none⟩ (some empty_claude_configuration)
        "cmd").file = some empty_claude_configuration) ∨
     ((some empty_claude_configuration : Option ClaudeConfiguration) = none ∧
      (⟨none, none⟩ : ClaudePromptScript).create_confirm = some true ∧
      (claude_config_flow ⟨none, none⟩ (some empty_claude_configuration)
         "cmd").writes = [empty_claude_configuration] ∧
      (claude_config_flow ⟨none, none⟩ (some empty_claude_configuration)
         "cmd").file = some empty_claude_configuration)) :=
  ⟨rfl,
   cancelled_flow_no_content_mutation.1 ⟨none, none⟩
     (some empty_claude_configuration) "cmd" rfl⟩

/-! ## Generic lemmas about the hooks-map merge -/

section AssocMergeLemmas

variable {K V : Type} [DecidableEq K] {p : V → Bool} {e : V}

omit [DecidableEq K] in
theorem keysOf_stripVals (l : List (K × List V)) :
    keysOf (stripVals p l) = keysOf l := by
  induction l with
  | nil => rfl
  | cons kv rest ih =>
    show kv.1 :: keysOf (stripVals p rest) = kv.1 :: keysOf rest
    rw [ih]

theorem lookupKey_none_of_not_mem {k : K} {l : List (K × List V)}
    (h : k ∉ keysOf l) : lookupKey k l = none := by
  induction l with
  | nil => rfl
  | cons kv rest ih =>
    have h1 : kv.1 ≠ k := fun he => h (List.mem_cons.mpr (Or.inl he.symm))
    have h2 : k ∉ keysOf rest := fun hm => h (List.mem_cons.mpr (Or.inr hm))
    show (if kv.1 = k then some kv.2 else lookupKey k rest) = none
    rw [if_neg h1]
    exact ih h2

theorem lookupKey_stripVals (k : K) (l : List (K × List V)) :
    lookupKey k (stripVals p l) =
      (lookupKey k l).map (fun v => v.filter (fun x => !p x)) := by
  induction l with
  | nil => rfl
  | cons kv rest ih =>
    by_cases hk : kv.1 = k
    · simp [stripVals, lookupKey, hk]
    · simp only [stripVals, List.map_cons, lookupKey, if_neg hk]
      exact ih

theorem lookupKey_addOne_self (k : K) (l : List (K × List V)) :
    lookupKey k (addOne e k l) = some ((lookupKey k l).getD [] ++ [e]) := by
  induction l with
  | nil => simp [addOne, lookupKey]
  | cons kv rest ih =>
    obtain ⟨k', vs⟩ := kv
    by_cases hk : k' = k
    · simp [addOne, lookupKey, hk]
    · simp only [addOne, if_neg hk, lookupKey]
      exact ih

theorem lookupKey_addOne_other {k k' : K} (hne : k ≠ k') (l : List (K × List V)) :
    lookupKey k (addOne e k' l) = lookupKey k l := by
  induction l with
  | nil =>
    show (if k' = k then some [e] else lookupKey k ([] : List (K × List V))) =
      lookupKey k ([] : List (K × List V))
    rw [if_neg hne.symm]
  | cons kv rest ih =>
    obtain ⟨k₀, vs⟩ := kv
    by_cases hk : k₀ = k'
    · subst hk
      have h1 : addOne e k₀ ((k₀, vs) :: rest) = (k₀, vs ++ [e]) :: rest := by
        simp [addOne]
      rw [h1]
      show (if k₀ = k then some (vs ++ [e]) else lookupKey k rest) =
        (if k₀ = k then some vs else lookupKey k rest)
      rw [if_neg hne.symm, if_neg hne.symm]
    · have h1 : addOne e k' ((k₀, vs) :: rest) = (k₀, vs) :: addOne e k' rest := by
        simp [addOne, hk]
      rw [h1]
      show (if k₀ = k then some vs else lookupKey k (addOne e k' rest)) =
        (if k₀ = k then some vs else lookupKey k rest)
      by_cases h0 : k₀ = k
      · rw [if_pos h0, if_pos h0]
      · rw [if_neg h0, if_neg h0]
        exact ih

theorem lookupKey_addAll_not_mem {k : K} {sel : List K} (hmem : k ∉ sel)
    (l : List (K × List V)) :
    lookupKey k (addAll e sel l) = lookupKey k l := by
  induction sel generalizing l with
  | nil => rfl
  | cons a as ih =>
    have hka : k ≠ a := fun h => hmem (List.mem_cons.mpr (Or.inl h))
    have has : k ∉ as := fun h => hmem (List.mem_cons.mpr (Or.inr h))
    show lookupKey k (addAll e as (addOne e a l)) = _
    rw [ih has (addOne e a l), lookupKey_addOne_other hka]

theorem lookupKey_addAll_mem {k : K} {sel : List K} (hmem : k ∈ sel)
    (hn : sel.Nodup) (l : List (K × List V)) :
    lookupKey k (addAll e sel l) = some ((lookupKey k l).getD [] ++ [e]) := by
  induction sel generalizing l with
  | nil => cases hmem
  | cons a as ih =>
    rcases List.mem_cons.mp hmem with h | h
    · subst h
      have hnot : k ∉ as := (List.nodup_cons.mp hn).1
      show lookupKey k (addAll e as (addOne e k l)) = _
      rw [lookupKey_addAll_not_mem hnot (addOne e k l), lookupKey_addOne_self]
    · have hka : k ≠ a := fun he => (List.nodup_cons.mp hn).1 (he ▸ h)
      show lookupKey k (addAll e as (addOne e a l)) = _
      rw [ih h (List.nodup_cons.mp hn).2 (addOne e a l),
        lookupKey_addOne_other hka]

/-- Peeling one map entry off an `addAll` over a duplicate-free selection. -/
theorem addAll_cons_entry (k : K) :
    ∀ (sel : List K), sel.Nodup → ∀ (u : List V) (m : List (K × List V)),
      addAll e sel ((k, u) :: m) =
        (k, if k ∈ sel then u ++ [e] else u) :: addAll e (sel.erase k) m := by
  intro sel
  induction sel with
  | nil => intro _ u m; simp [addAll]
  | cons a as ih =>
    intro hn u m
    by_cases hak : a = k
    · subst hak
      have hnotin : a ∉ as := (List.nodup_cons.mp hn).1
      show addAll e as (addOne e a ((a, u) :: m)) = _
      have h1 : addOne e a ((a, u) :: m) = (a, u ++ [e]) :: m := by
        simp [addOne]
      rw [h1, ih (List.nodup_cons.mp hn).2 (u ++ [e]) m,
        if_neg hnotin, List.erase_cons_head,
        List.erase_of_not_mem hnotin, if_pos (List.mem_cons_self a as)]
    · have hka : ¬(k = a) := fun h => hak h.symm
      have h1 : addOne e a ((k, u) :: m) = (k, u) :: addOne e a m := by
        simp [addOne, hka]
      show addAll e as (addOne e a ((k, u) :: m)) = _
      rw [h1, ih (List.nodup_cons.mp hn).2 u (addOne e a m)]
      have hite : (if k ∈ as then u ++ [e] else u) =
          (if k ∈ a :: as then u ++ [e] else u) := by
        by_cases hin : k ∈ as
        · rw [if_pos hin, if_pos (List.mem_cons_of_mem a hin)]
        · have hnc : k ∉ a :: as := by
            intro hc
            rcases List.mem_cons.mp hc with h | h
            · exact hka h
            · exact hin h
          rw [if_neg hin, if_neg hnc]
      have herase : (a :: as).erase k = a :: as.erase k := by
        rw [List.erase_cons_tail]
        simp [hak]
      rw [hite, herase]
      rfl

/-- Full characterization of `addAll` on a duplicate-free map: existing
keys get `e` appended when selected, and missing selected keys are appended
at the end with the singleton `[e]`. -/
theorem addAll_eq (sel : List K) (m : List (K × List V)) (hsel : sel.Nodup)
    (hm : (keysOf m).Nodup) :
    addAll e sel m =
      m.map (fun kv => (kv.1, if kv.1 ∈ sel then kv.2 ++ [e] else kv.2)) ++
      (sel.filter (fun k => decide (k ∉ keysOf m))).map (fun k => (k, [e])) := by
  induction m generalizing sel with
  | nil =>
    have hbase : ∀ (s : List K), s.Nodup →
        addAll e s ([] : List (K × List V)) = s.map (fun k => (k, [e])) := by
      intro s
      induction s with
      | nil => intro _; rfl
      | cons a as ih2 =>
        intro hns
        show addAll e as (addOne e a []) = _
        have h1 : addOne e a ([] : List (K × List V)) = [(a, [e])] := rfl
        rw [h1, addAll_cons_entry a as (List.nodup_cons.mp hns).2 [e] [],
          if_neg (List.nodup_cons.mp hns).1,
          List.erase_of_not_mem (List.nodup_cons.mp hns).1, ih2
            (List.nodup_cons.mp hns).2]
        rfl
    rw [hbase sel hsel]
    simp [keysOf]
  | cons kv rest ih =>
    obtain ⟨k₀, v₀⟩ := kv
    have hk₀ : k₀ ∉ keysOf rest := by
      simpa [keysOf] using (List.nodup_cons.mp hm).1
    have hrest : (keysOf rest).Nodup := by
      simpa [keysOf] using (List.nodup_cons.mp hm).2
    rw [addAll_cons_entry k₀ sel hsel v₀ rest,
      ih (sel.erase k₀) (hsel.erase k₀) hrest]
    have hmap : rest.map (fun kv =>
        (kv.1, if kv.1 ∈ sel.erase k₀ then kv.2 ++ [e] else kv.2)) =
        rest.map (fun kv => (kv.1, if kv.1 ∈ sel then kv.2 ++ [e] else kv.2)) := by
      apply List.map_congr_left
      intro kv hkv
      have hne : kv.1 ≠ k₀ := by
        intro he
        exact hk₀ (he ▸ List.mem_map_of_mem Prod.fst hkv)
      simp [List.Nodup.mem_erase_iff hsel, hne]
    have hfilter : (sel.erase k₀).filter (fun k => decide (k ∉ keysOf rest)) =
        sel.filter (fun k => decide (k ∉ keysOf ((k₀, v₀) :: rest))) := by
      rw [hsel.erase_eq_filter k₀, List.filter_filter]
      apply List.filter_congr
      intro a _
      by_cases hak0 : a = k₀
      · simp [hak0, keysOf]
      · have h1 : (a != k₀) = true := by simp [bne_iff_ne, hak0]
        have h2 : (a == k₀) = false := by simp [hak0]
        simp [keysOf, h1, h2]
    rw [hmap, hfilter]
    rfl

theorem mem_keysOf_of_lookupKey {k : K} {l : List (K × List V)} {v : List V}
    (h : lookupKey k l = some v) : k ∈ keysOf l := by
  induction l with
  | nil => exact Option.noConfusion h
  | cons kv rest ih =>
    by_cases hk : kv.1 = k
    · exact List.mem_cons.mpr (Or.inl hk.symm)
    · refine List.mem_cons.mpr (Or.inr (ih ?_))
      rw [show lookupKey k (kv :: rest) =
        (if kv.1 = k then some kv.2 else lookupKey k rest) from rfl,
        if_neg hk] at h
      exact h

omit [DecidableEq K] in
theorem cleanupEmpty_mem {kv : K × List V} {l : List (K × List V)}
    (h : kv ∈ cleanupEmpty l) : kv ∈ l ∧ kv.2 ≠ [] := by
  have h2 := List.mem_filter.mp h
  refine ⟨h2.1, ?_⟩
  intro he
  rw [he] at h2
  simp at h2

omit [DecidableEq K] in
theorem keysOf_cleanupEmpty_nodup {l : List (K × List V)}
    (h : (keysOf l).Nodup) : (keysOf (cleanupEmpty l)).Nodup :=
  ((List.filter_sublist l).map Prod.fst).nodup h

theorem lookupKey_cleanupEmpty (k : K) (l : List (K × List V))
    (h : (keysOf l).Nodup) :
    lookupKey k (cleanupEmpty l) =
      (lookupKey k l).bind (fun v => if v.isEmpty then none else some v) := by
  induction l with
  | nil => rfl
  | cons kv rest ih =>
    obtain ⟨k₀, v₀⟩ := kv
    have hk₀ : k₀ ∉ keysOf rest := by
      simpa [keysOf] using (List.nodup_cons.mp h).1
    have hrest : (keysOf rest).Nodup := by
      simpa [keysOf] using (List.nodup_cons.mp h).2
    by_cases hempty : v₀.isEmpty
    · have h1 : cleanupEmpty ((k₀, v₀) :: rest) = cleanupEmpty rest := by
        simp [cleanupEmpty, hempty]
      rw [h1, ih hrest]
      by_cases hk : k₀ = k
      · subst hk
        rw [lookupKey_none_of_not_mem hk₀]
        show (none : Option (List V)) =
          (if k₀ = k₀ then some v₀ else lookupKey k₀ rest).bind _
        rw [if_pos rfl]
        simp [hempty]
      · show (lookupKey k rest).bind _ =
          (if k₀ = k then some v₀ else lookupKey k rest).bind _
        rw [if_neg hk]
    · have h1 : cleanupEmpty ((k₀, v₀) :: rest) = (k₀, v₀) :: cleanupEmpty rest := by
        simp [cleanupEmpty, hempty]
      rw [h1]
      show (if k₀ = k then some v₀ else lookupKey k (cleanupEmpty rest)) =
        (if k₀ = k then some v₀ else lookupKey k rest).bind _
      by_cases hk : k₀ = k
      · rw [if_pos hk, if_pos hk]
        simp [hempty]
      · rw [if_neg hk, if_neg hk]
        exact ih hrest

theorem keysOf_addAll_nodup (sel : List K) (m : List (K × List V))
    (hsel : sel.Nodup) (hm : (keysOf m).Nodup) :
    (keysOf (addAll e sel m)).Nodup := by
  rw [addAll_eq sel m hsel hm]
  have hkeys : keysOf
      (m.map (fun kv => (kv.1, if kv.1 ∈ sel then kv.2 ++ [e] else kv.2)) ++
       (sel.filter (fun k => decide (k ∉ keysOf m))).map (fun k => (k, [e]))) =
      keysOf m ++ sel.filter (fun k => decide (k ∉ keysOf m)) := by
    show (List.map Prod.fst (_ ++ _)) = _
    rw [List.map_append, List.map_map, List.map_map]
    congr 1
    exact (List.map_congr_left fun k _ => rfl).trans (List.map_id _)
  rw [hkeys]
  rw [List.nodup_append]
  refine ⟨hm, hsel.filter _, ?_⟩
  intro a ha hb
  have := List.of_mem_filter hb
  simp at this
  exact this ha

/-- The fixpoint property of the merged map: stripping and re-adding on a
map whose selected keys already end with exactly one `e` (and whose other
values carry no `e`-like entries) is the identity. -/
theorem addAll_strip_fixpoint :
    ∀ (l : List (K × List V)) (sel : List K), sel.Nodup →
      (keysOf l).Nodup →
      (∀ k ∈ sel, k ∈ keysOf l) →
      (∀ kv ∈ l, kv.1 ∈ sel → kv.2 = kv.2.filter (fun v => !p v) ++ [e]) →
      (∀ kv ∈ l, kv.1 ∉ sel → kv.2.filter (fun v => !p v) = kv.2) →
      addAll e sel (stripVals p l) = l := by
  intro l
  induction l with
  | nil =>
    intro sel _ _ hsub _ _
    have hnil : sel = [] := by
      cases sel with
      | nil => rfl
      | cons a as =>
        exact absurd (hsub a (List.mem_cons_self a as)) (by simp [keysOf])
    subst hnil
    rfl
  | cons kv rest ih =>
    intro sel hsel hkeys hsub hin hout
    obtain ⟨k₀, v₀⟩ := kv
    have hk₀ : k₀ ∉ keysOf rest := by
      simpa [keysOf] using (List.nodup_cons.mp hkeys).1
    have hrest : (keysOf rest).Nodup := by
      simpa [keysOf] using (List.nodup_cons.mp hkeys).2
    show addAll e sel ((k₀, v₀.filter (fun v => !p v)) :: stripVals p rest) = _
    rw [addAll_cons_entry k₀ sel hsel (v₀.filter (fun v => !p v)) (stripVals p rest)]
    have hhead : (k₀, if k₀ ∈ sel then v₀.filter (fun v => !p v) ++ [e]
        else v₀.filter (fun v => !p v)) = (k₀, v₀) := by
      by_cases hmem : k₀ ∈ sel
      · rw [if_pos hmem]
        exact congrArg (Prod.mk k₀)
          (hin (k₀, v₀) (List.mem_cons_self _ _) hmem).symm
      · rw [if_neg hmem]
        exact congrArg (Prod.mk k₀)
          (hout (k₀, v₀) (List.mem_cons_self _ _) hmem)
    rw [hhead]
    have htail : addAll e (sel.erase k₀) (stripVals p rest) = rest := by
      apply ih (sel.erase k₀) (hsel.erase k₀) hrest
      · intro k hk
        have hks := (List.Nodup.mem_erase_iff hsel).mp hk
        have hm := hsub k hks.2
        rcases List.mem_cons.mp hm with h | h
        · exact absurd h hks.1
        · exact h
      · intro kv hkv hmem
        exact hin kv (List.mem_cons_of_mem _ hkv)
          ((List.Nodup.mem_erase_iff hsel).mp hmem).2
      · intro kv hkv hmem
        apply hout kv (List.mem_cons_of_mem _ hkv)
        intro hs
        apply hmem
        rw [List.Nodup.mem_erase_iff hsel]
        refine ⟨?_, hs⟩
        intro he
        exact hk₀ (he ▸ List.mem_map_of_mem Prod.fst hkv)
    rw [htail]

omit [DecidableEq K] in
theorem filter_self_idem (q : V → Bool) (l : List V) :
    (l.filter q).filter q = l.filter q :=
  List.filter_eq_self.mpr (fun a ha => (List.mem_filter.mp ha).2)

theorem keysOf_mergeHooks_nodup (sel : List K) (l : List (K × List V))
    (hsel : sel.Nodup) (hm : (keysOf l).Nodup) :
    (keysOf (mergeHooks p e sel l)).Nodup := by
  apply keysOf_cleanupEmpty_nodup
  apply keysOf_addAll_nodup sel _ hsel
  rw [keysOf_stripVals]
  exact hm

theorem lookupKey_mergeHooks_mem (hp : p e = true) {k : K} {sel : List K}
    (hk : k ∈ sel) (hsel : sel.Nodup) (l : List (K × List V))
    (hm : (keysOf l).Nodup) :
    lookupKey k (mergeHooks p e sel l) =
      some (((lookupKey k l).getD []).filter (fun v => !p v) ++ [e]) := by
  unfold mergeHooks
  rw [lookupKey_cleanupEmpty _ _ (by
    apply keysOf_addAll_nodup sel _ hsel
    rw [keysOf_stripVals]
    exact hm)]
  rw [lookupKey_addAll_mem hk hsel, lookupKey_stripVals]
  cases hlk : lookupKey k l with
  | none => simp
  | some v => simp

/-- Every entry of the merged map is nonempty; its selected entries consist
of the stripped original value followed by exactly `e`; its unselected
entries are strip-invariant. -/
theorem mergeHooks_shape (hp : p e = true) (sel : List K)
    (l : List (K × List V)) (hsel : sel.Nodup) (hm : (keysOf l).Nodup) :
    ∀ kv ∈ mergeHooks p e sel l,
      kv.2 ≠ [] ∧
      (kv.1 ∈ sel → kv.2 = kv.2.filter (fun v => !p v) ++ [e]) ∧
      (kv.1 ∉ sel → kv.2.filter (fun v => !p v) = kv.2) := by
  intro kv hkv
  have h1 := cleanupEmpty_mem hkv
  have h2 : kv ∈ addAll e sel (stripVals p l) := h1.1
  rw [addAll_eq sel (stripVals p l) hsel
    (by rw [keysOf_stripVals]; exact hm)] at h2
  have he : ([e].filter (fun v => !p v)) = [] := by simp [hp]
  refine ⟨h1.2, ?_, ?_⟩
  · intro hksel
    rcases List.mem_append.mp h2 with h3 | h3
    · rcases List.mem_map.mp h3 with ⟨kw, hkw, hEq⟩
      rcases List.mem_map.mp hkw with ⟨kz, hkz, rfl⟩
      cases hEq
      dsimp only at hksel ⊢
      rw [if_pos hksel, List.filter_append, he,
        filter_self_idem, List.append_nil]
    · rcases List.mem_map.mp h3 with ⟨k, hkf, hEq⟩
      cases hEq
      dsimp only
      rw [he]
      rfl
  · intro hknot
    rcases List.mem_append.mp h2 with h3 | h3
    · rcases List.mem_map.mp h3 with ⟨kw, hkw, hEq⟩
      rcases List.mem_map.mp hkw with ⟨kz, hkz, rfl⟩
      cases hEq
      dsimp only at hknot ⊢
      rw [if_neg hknot]
      exact filter_self_idem _ _
    · rcases List.mem_map.mp h3 with ⟨k, hkf, hEq⟩
      cases hEq
      exact absurd (List.mem_of_mem_filter hkf) hknot

theorem mergeHooks_idem (hp : p e = true) (sel : List K)
    (l : List (K × List V)) (hsel : sel.Nodup) (hm : (keysOf l).Nodup) :
    mergeHooks p e sel (mergeHooks p e sel l) = mergeHooks p e sel l := by
  have hkeys2 : (keysOf (mergeHooks p e sel l)).Nodup :=
    keysOf_mergeHooks_nodup sel l hsel hm
  have hshape := mergeHooks_shape hp sel l hsel hm
  have hsub : ∀ k ∈ sel, k ∈ keysOf (mergeHooks p e sel l) := by
    intro k hk
    exact mem_keysOf_of_lookupKey (lookupKey_mergeHooks_mem hp hk hsel l hm)
  have hfix : addAll e sel (stripVals p (mergeHooks p e sel l)) =
      mergeHooks p e sel l :=
    addAll_strip_fixpoint _ sel hsel hkeys2 hsub
      (fun kv hkv hmem => ((hshape kv hkv).2.1) hmem)
      (fun kv hkv hmem => ((hshape kv hkv).2.2) hmem)
  show cleanupEmpty (addAll e sel (stripVals p (mergeHooks p e sel l))) = _
  rw [hfix]
  apply List.filter_eq_self.mpr
  intro kv hkv
  have hne := (hshape kv hkv).1
  simpa using hne

theorem countP_strip_append (hp : p e = true) (w : List V) :
    ((w.filter (fun v => !p v)) ++ [e]).countP p = 1 := by
  rw [List.countP_append]
  have h0 : (w.filter (fun v => !p v)).countP p = 0 := by
    rw [List.countP_eq_zero]
    intro a ha
    have h2 := (List.mem_filter.mp ha).2
    simp only [Bool.not_eq_true'] at h2
    simp [h2]
  rw [h0]
  simp [hp]

end AssocMergeLemmas

/-- C4: for every starting configuration (with the real map's distinct
keys), every duplicate-free selection and a command that the tool's own
detection recognizes, the merge step is idempotent — running it a second
time with the same selection returns the identical document, so any
deterministic serialization is byte-identical —; each selected event ends
up with exactly one handler entry of this tool; that entry is appended
after the event's pre-existing third-party handler entries, which are
preserved unchanged. -/
theorem claude_merge_idempotent_frame :
    ∀ (config : ClaudeConfiguration) (command : String)
      (sel : List HookEventName),
      ehc_is_ours (our_hook_config command) = true →
      sel.Nodup →
      (keysOf config.hooks).Nodup →
      (with_selected_notification_hooks
          (with_selected_notification_hooks config command sel) command sel =
        with_selected_notification_hooks config command sel) ∧
      (∀ k ∈ sel, ∀ v₀, lookupKey k config.hooks = some v₀ →
          lookupKey k
              (with_selected_notification_hooks config command sel).hooks =
            some (v₀.filter (fun hc => !ehc_is_ours hc) ++
              [our_hook_config command])) ∧
      (∀ k ∈ sel, lookupKey k config.hooks = none →
          lookupKey k
              (with_selected_notification_hooks config command sel).hooks =
            some [our_hook_config command]) ∧
      (∀ k ∈ sel, ∀ v,
          lookupKey k
              (with_selected_notification_hooks config command sel).hooks =
            some v →
          v.countP ehc_is_ours = 1) := by
  intro config command sel hours hndsel hndkeys
  refine ⟨?_, ?_, ?_, ?_⟩
  · unfold with_selected_notification_hooks
    dsimp only
    rw [mergeHooks_idem hours sel config.hooks hndsel hndkeys]
  · intro k hk v₀ hlk
    show lookupKey k
      (mergeHooks ehc_is_ours (our_hook_config command) sel config.hooks) = _
    rw [lookupKey_mergeHooks_mem hours hk hndsel config.hooks hndkeys, hlk]
    rfl
  · intro k hk hlk
    show lookupKey k
      (mergeHooks ehc_is_ours (our_hook_config command) sel config.hooks) = _
    rw [lookupKey_mergeHooks_mem hours hk hndsel config.hooks hndkeys, hlk]
    rfl
  · intro k hk v hv
    have hv2 : lookupKey k
        (mergeHooks ehc_is_ours (our_hook_config command) sel config.hooks) =
        some v := hv
    rw [lookupKey_mergeHooks_mem hours hk hndsel config.hooks hndkeys] at hv2
    have hv3 := Option.some.inj hv2
    rw [← hv3]
    exact countP_strip_append hours _

/-- A third-party handler action used in the C4 witness. -/
def rivalAction : ActionConfiguration :=
  { type := .command, command := "/usr/bin/other-tool notify", timeout := none }

/-- A third-party handler entry used in the C4 witness. -/
def rivalHook : EventHookConfiguration :=
  { matcher := "", hooks := [rivalAction] }

/-- C4 witness: applying the merge theorem to a concrete configuration with
one pre-existing third-party handler on `Stop`. -/
theorem claude_merge_idempotent_frame_witness :
    ehc_is_ours (our_hook_config "\"/usr/local/bin/anot\" claude") = true ∧
    ([HookEventName.Stop, HookEventName.PreToolUse].Nodup) ∧
    (with_selected_notification_hooks
        (with_selected_notification_hooks
          { hooks := [(HookEventName.Stop, [rivalHook])], other := [] }
          "\"/usr/local/bin/anot\" claude"
          [HookEventName.Stop, HookEventName.PreToolUse])
        "\"/usr/local/bin/anot\" claude"
        [HookEventName.Stop, HookEventName.PreToolUse] =
      with_selected_notification_hooks
        { hooks := [(HookEventName.Stop, [rivalHook])], other := [] }
        "\"/usr/local/bin/anot\" claude"
        [HookEventName.Stop, HookEventName.PreToolUse]) ∧
    lookupKey HookEventName.Stop
        (with_selected_notification_hooks
          { hooks := [(HookEventName.Stop, [rivalHook])], other := [] }
          "\"/usr/local/bin/anot\" claude"
          [HookEventName.Stop, HookEventName.PreToolUse]).hooks =
      some [rivalHook, our_hook_config "\"/usr/local/bin/anot\" claude"] := by
  have hours : ehc_is_ours
      (our_hook_config "\"/usr/local/bin/anot\" claude") = true := by decide
  have hmain := claude_merge_idempotent_frame
    { hooks := [(HookEventName.Stop, [rivalHook])], other := [] }
    "\"/usr/local/bin/anot\" claude"
    [HookEventName.Stop, HookEventName.PreToolUse]
    hours (by decide) (by decide)
  refine ⟨hours, by decide, hmain.1, ?_⟩
  have h2 := hmain.2.1 HookEventName.Stop (by decide) [rivalHook] rfl
  rw [h2]
  decide

end AgentNotif
